import Mathlib

/-!
Verification of the batch recolor orchestration core (ChromaThread AI).

The definitions below are a shallow embedding of:
* the retry executor `withRetry` (src/App.tsx, geminiService section, lines 496-533),
* the batch orchestrator `handleRecolorBatch` (src/App.tsx lines 79-148),
* the data model (src/types.ts),
* the pixel color sampler `getHexColor` (src/components/Controls.tsx,
  ImageSampler section, lines 522-537).

Asynchronous effects are modelled by explicit state passing: the external
recolor call is an oracle `RecolorTask → Except String String` (error
description string, or base64 result string), `Math.random()` is an oracle
`Nat → ℚ` giving the value drawn before each backoff sleep, and delays that
the code sleeps are returned as data instead of being waited on.
-/

namespace BatchColorChange

/-- Data model from src/types.ts: `ColorDefinition { name, hex }`. -/
structure ColorDefinition where
  name : String
  hex : String
deriving DecidableEq, Repr

/-- Status field of `ProcessedImage` (src/types.ts). -/
inductive ImageStatus where
  | pending
  | processing
  | completed
  | error
deriving DecidableEq, Repr

/-- One result entry of an image (src/types.ts `ProcessedResult`).
The color is optional in the v1.8 source (`res.color?.hex` is used with
optional chaining; pure-generation results carry no color). -/
structure ProcessedResult where
  color : Option ColorDefinition
  url : String
deriving DecidableEq, Repr

/-- An uploaded image with its per-run state (src/types.ts `ProcessedImage`). -/
structure ProcessedImage where
  id : String
  originalUrl : String
  results : List ProcessedResult
  status : ImageStatus
  errorMsg : Option String
  activeResultIndex : Option Nat
deriving DecidableEq, Repr

/-- The two engine tiers (src/App.tsx `modelTier`). -/
inductive ModelTier where
  | flash
  | pro
deriving DecidableEq, Repr

/-- One work item of a batch run (src/App.tsx line 95:
`tasks.push({ imageId: img.id, color, originalUrl: img.originalUrl })`). -/
structure RecolorTask where
  imageId : String
  color : ColorDefinition
  originalUrl : String
deriving DecidableEq, Repr

/-- JavaScript `haystack.includes(pat)`: some contiguous substring of
`haystack` equals `pat`. -/
def strContains (haystack pat : String) : Bool :=
  (List.range (haystack.toList.length + 1)).any
    (fun i => pat.toList.isPrefixOf (haystack.toList.drop i))

/-- src/App.tsx line 510: `errorStr.includes("429") ||
errorStr.includes("RESOURCE_EXHAUSTED")`. -/
def isRateLimitError (errorStr : String) : Bool :=
  strContains errorStr "429" || strContains errorStr "RESOURCE_EXHAUSTED"

/-- src/App.tsx lines 511-515: rate-limit, server-error ("500"/"503") or
transport-failure ("Rpc failed"/"xhr error") markers classify an error
as transient. -/
def isTransientError (errorStr : String) : Bool :=
  isRateLimitError errorStr ||
    strContains errorStr "500" ||
    strContains errorStr "503" ||
    strContains errorStr "Rpc failed" ||
    strContains errorStr "xhr error"

/-- src/App.tsx line 519: `backoffDelay = baseDelay * Math.pow(backoffFactor,
attempt - 1)` with `backoffFactor = isRateLimit ? 2.5 : 2.0`.
`k` is the 1-indexed number of the attempt that just failed. -/
def backoffDelay (baseDelay : ℚ) (isRateLimit : Bool) (k : Nat) : ℚ :=
  baseDelay * (if isRateLimit then (5 / 2 : ℚ) else 2) ^ (k - 1)

/-- src/App.tsx lines 520-521: `jitter = backoffDelay * 0.25 *
(Math.random() * 2 - 1)`; `finalDelay = Math.max(2000, backoffDelay + jitter)`.
`r` is the value returned by `Math.random()`. -/
def finalDelay (baseDelay : ℚ) (isRateLimit : Bool) (k : Nat) (r : ℚ) : ℚ :=
  max 2000 (backoffDelay baseDelay isRateLimit k
    + backoffDelay baseDelay isRateLimit k * (1 / 4) * (r * 2 - 1))

/-- Observable outcome of a `withRetry` execution: the value returned or
error thrown, the total number of invocations of the wrapped operation, and
the list of backoff delays slept (in order). -/
structure RetryResult (α : Type) where
  result : Except String α
  calls : Nat
  delays : List ℚ
deriving Repr

/-- The `while (attempt <= retries)` loop of `withRetry`
(src/App.tsx lines 501-531), with the loop counter made explicit.
`fn i` is the outcome of the i-th invocation (0-indexed), `rand i` the
`Math.random()` draw after the i-th invocation fails.  `fuel` equals
`retries + 1 - attempt`, so `fuel = 0` is exactly the loop exit
(`attempt > retries`), which throws "Maximum retry attempts exceeded"
(line 532). -/
def withRetryGo (fn : Nat → Except String α) (rand : Nat → ℚ)
    (baseDelay : ℚ) (retries : Nat) : Nat → Nat → RetryResult α
  | 0, _ => ⟨.error "Maximum retry attempts exceeded for API quota.", 0, []⟩
  | fuel + 1, attempt =>
    match fn attempt with
    | .ok v => ⟨.ok v, 1, []⟩
    | .error e =>
      -- `attempt++` (line 507): `a` is the incremented counter.
      let a := attempt + 1
      if a ≤ retries ∧ isTransientError e = true then
        let rest := withRetryGo fn rand baseDelay retries fuel a
        ⟨rest.result, rest.calls + 1,
          finalDelay baseDelay (isRateLimitError e) a (rand attempt) :: rest.delays⟩
      else
        ⟨.error e, 1, []⟩

/-- `withRetry fn retries baseDelay` started at `attempt = 0`. -/
def withRetry (fn : Nat → Except String α) (rand : Nat → ℚ)
    (retries : Nat) (baseDelay : ℚ) : RetryResult α :=
  withRetryGo fn rand baseDelay retries (retries + 1) 0

/-- `withRetry` under its default configuration: `retries = 8`,
`baseDelay = 4000` (src/App.tsx lines 498-499). -/
def withRetryDefault (fn : Nat → Except String α) (rand : Nat → ℚ) : RetryResult α :=
  withRetry fn rand 8 4000

/-- src/App.tsx lines 92-97: the batch task generator.  Outer loop over the
images (workspace order), inner loop over the target colors (selection
order); one task pushed per (image, color) pair. -/
def makeTasks (images : List ProcessedImage)
    (targetColors : List ColorDefinition) : List RecolorTask :=
  images.flatMap fun img =>
    targetColors.map fun color => ⟨img.id, color, img.originalUrl⟩

/-- src/App.tsx lines 106-117: the state update applied to each image after
a successful work item.  Variants whose exact hex equals the new color's hex
are filtered out (`r.color?.hex !== task.color.hex`), the new variant is
appended, status becomes completed, and the active-result pointer is set to
the new variant's index. -/
def successUpdate (task : RecolorTask) (processedBase64 : String)
    (img : ProcessedImage) : ProcessedImage :=
  if img.id = task.imageId then
    let existingResults :=
      img.results.filter fun r => r.color.map ColorDefinition.hex ≠ some task.color.hex
    { img with
      results := existingResults ++ [⟨some task.color, processedBase64⟩],
      status := .completed,
      activeResultIndex := some existingResults.length }
  else img

/-- src/App.tsx line 122: `errStr.includes("Requested entity was not found")
|| errStr.includes("APIKEY_ERROR")`. -/
def isApiKeyError (errStr : String) : Bool :=
  strContains errStr "Requested entity was not found" ||
    strContains errStr "APIKEY_ERROR"

/-- src/App.tsx line 133: message for a credential/authorization failure. -/
def apiKeyErrorMsg : String := "API Key invalid or missing for selected engine."

/-- src/App.tsx line 135: message for a rate-limit/backoff failure. -/
def rateLimitErrorMsg : String :=
  "Quota limit hit. System is retrying with exponential backoff."

/-- src/App.tsx line 136: message for a generic failure. -/
def genericErrorMsg : String := "Generation error. Please try again."

/-- src/App.tsx lines 132-136: the user-facing message selected from the
error description. -/
def failMessage (errStr : String) : String :=
  if isApiKeyError errStr then apiKeyErrorMsg
  else if isRateLimitError errStr then rateLimitErrorMsg
  else genericErrorMsg

/-- src/App.tsx lines 127-140: the state update applied to each image after
a work item fails.  Only the owning image is touched, and only when its
result list is empty (`img.id === task.imageId && img.results.length === 0`);
it is then marked error with the category message. -/
def failUpdate (task : RecolorTask) (errStr : String)
    (img : ProcessedImage) : ProcessedImage :=
  if img.id = task.imageId ∧ img.results.length = 0 then
    { img with status := .error, errorMsg := some (failMessage errStr) }
  else img

/-- The mutable state threaded through the work-item loop of
`handleRecolorBatch` (src/App.tsx lines 100-145): the image list, the
`completedTasks` counter, the published progress fraction, and the two
global flags the catch branch can set. -/
structure RunState where
  images : List ProcessedImage
  completedTasks : Nat
  processingProgress : ℚ
  rateLimitActive : Bool
  hasApiKey : Option Bool
deriving DecidableEq, Repr

/-- One iteration of the `for (const task of tasks)` loop
(src/App.tsx lines 103-145).  `call` is the external recolor operation
already wrapped by the retry executor; its error is the string the catch
branch observes. -/
def runStep (modelTier : ModelTier) (totalTasks : Nat)
    (call : RecolorTask → Except String String) (task : RecolorTask)
    (st : RunState) : RunState :=
  match call task with
  | .ok processedBase64 =>
    { st with
      images := st.images.map (successUpdate task processedBase64),
      completedTasks := st.completedTasks + 1,
      processingProgress := ((st.completedTasks + 1 : Nat) : ℚ) / (totalTasks : ℚ) }
  | .error errStr =>
    { images := st.images.map (failUpdate task errStr),
      completedTasks := st.completedTasks + 1,
      processingProgress := ((st.completedTasks + 1 : Nat) : ℚ) / (totalTasks : ℚ),
      rateLimitActive := st.rateLimitActive || isRateLimitError errStr,
      hasApiKey :=
        if isApiKeyError errStr ∧ modelTier = .pro then some false else st.hasApiKey }

/-- The whole sequential work-item loop: tasks are processed strictly one
after the other, each through `runStep`, regardless of individual
outcomes. -/
def runTasks (modelTier : ModelTier) (totalTasks : Nat)
    (call : RecolorTask → Except String String) :
    List RecolorTask → RunState → RunState
  | [], st => st
  | task :: rest, st =>
    runTasks modelTier totalTasks call rest (runStep modelTier totalTasks call task st)

/-- The pieces of React state read or written by `handleRecolorBatch`
(src/App.tsx).  `targetColors` and `modelTier` are the two fields of
`settings` the orchestrator itself uses (the remaining settings fields only
feed the opaque prompt of the external call). -/
structure AppState where
  images : List ProcessedImage
  targetColors : List ColorDefinition
  modelTier : ModelTier
  hasApiKey : Option Bool
  isProcessing : Bool
  isSampling : Bool
  processingProgress : ℚ
  rateLimitActive : Bool
deriving DecidableEq, Repr

/-- src/App.tsx lines 79-148: `handleRecolorBatch`, from the start guards to
run completion.  The second component of the pair is the value the handler
hands back to its caller: the source returns `undefined` on every path (no
message accompanies a refusal), so it is `none` everywhere; it is the channel
where a rejection reason would be reported.  The returned `AppState` is the
state after the run (or refusal) has finished: on the empty-input guard
(line 80) nothing is written; on the pro-tier key guard (lines 82-85) only
`hasApiKey` is set to false; otherwise the run executes and ends with
`isProcessing = false` and `rateLimitActive = false` (lines 146-147). -/
def handleRecolorBatch (call : RecolorTask → Except String String)
    (s : AppState) : AppState × Option String :=
  if s.images.length = 0 ∨ s.targetColors.length = 0 then (s, none)
  else if s.modelTier = .pro ∧ s.hasApiKey ≠ some true then
    ({ s with hasApiKey := some false }, none)
  else
    let tasks := makeTasks s.images s.targetColors
    let startImages :=
      s.images.map fun img => { img with status := ImageStatus.processing, errorMsg := none }
    let endState := runTasks s.modelTier tasks.length call tasks
      { images := startImages, completedTasks := 0, processingProgress := 0,
        rateLimitActive := false, hasApiKey := s.hasApiKey }
    ({ s with
        images := endState.images,
        hasApiKey := endState.hasApiKey,
        isProcessing := false,
        isSampling := false,
        processingProgress := endState.processingProgress,
        rateLimitActive := false }, none)

/-- RGB channel values of one pixel as read from the offscreen canvas
(`ctx.getImageData(x, y, 1, 1).data`). -/
structure RGB where
  r : Nat
  g : Nat
  b : Nat
deriving DecidableEq, Repr

/-- One base-16 digit character as produced by JavaScript
`Number.prototype.toString(16)` (digits then lowercase letters). -/
def hexDigitChar (d : Nat) : Char :=
  if d < 10 then Char.ofNat (48 + d) else Char.ofNat (87 + d)

/-- Little-endian base-16 digit list of `n`, with explicit fuel; correct for
every `n < 16 ^ fuel`.  `toHexLE 8 n` models `n.toString(16)` (up to digit
order) for the 25-bit values built by the sampler. -/
def toHexLE : Nat → Nat → List Char
  | 0, _ => []
  | fuel + 1, n =>
    if n = 0 then [] else hexDigitChar (n % 16) :: toHexLE fuel (n / 16)

/-- src/components/Controls.tsx (ImageSampler section) lines 522-537:
`getHexColor`.  `img` is the full-resolution offscreen canvas copy of the
image (drawn at `naturalWidth × naturalHeight` by `handleImageLoad`),
`(x, y)` the pointer coordinate relative to the displayed element, whose
bounding rectangle is `rectW × rectH`.  The scaled coordinates are floored
(`Math.floor`), one pixel is read, and the color is formatted as
`'#' + ((1<<24)+(r<<16)+(g<<8)+b).toString(16).slice(1).toUpperCase()`. -/
def getHexColor (img : ℤ → ℤ → RGB) (naturalW naturalH rectW rectH x y : ℚ) : String :=
  let scaleX := naturalW / rectW
  let scaleY := naturalH / rectH
  let pixelX := ⌊x * scaleX⌋
  let pixelY := ⌊y * scaleY⌋
  let pixelData := img pixelX pixelY
  let n := (1 <<< 24) + (pixelData.r <<< 16) + (pixelData.g <<< 8) + pixelData.b
  String.mk ('#' :: ((toHexLE 8 n).reverse.drop 1).map Char.toUpper)

/-- Every entered loop iteration performs at least one invocation. -/
theorem withRetryGo_calls_pos (fn : Nat → Except String α) (rand : Nat → ℚ)
    (baseDelay : ℚ) (retries : Nat) :
    ∀ fuel attempt, 1 ≤ fuel →
      1 ≤ (withRetryGo fn rand baseDelay retries fuel attempt).calls := by
  intro fuel attempt hfuel
  match fuel, hfuel with
  | fuel + 1, _ =>
    simp only [withRetryGo]
    split
    · simp
    · split
      · simp
      · simp

/-- When every invocation fails with a transient error, the loop entered at
`attempt` with matching fuel performs exactly `fuel` further invocations and
propagates the error of invocation number `retries` (the last one). -/
theorem withRetryGo_allFail (fn : Nat → Except String α) (es : Nat → String)
    (rand : Nat → ℚ) (baseDelay : ℚ) (retries : Nat)
    (hf : ∀ i, fn i = .error (es i)) (ht : ∀ i, isTransientError (es i) = true) :
    ∀ fuel attempt, fuel + attempt = retries + 1 → attempt ≤ retries →
      (withRetryGo fn rand baseDelay retries fuel attempt).result = .error (es retries) ∧
      (withRetryGo fn rand baseDelay retries fuel attempt).calls = fuel := by
  intro fuel
  induction fuel with
  | zero => intro attempt h1 h2; omega
  | succ fuel ih =>
    intro attempt h1 h2
    simp only [withRetryGo, hf attempt]
    by_cases hc : attempt + 1 ≤ retries
    · rw [if_pos ⟨hc, ht attempt⟩]
      have hrec := ih (attempt + 1) (by omega) hc
      exact ⟨hrec.1, by simp [hrec.2]⟩
    · rw [if_neg (by intro hand; exact hc hand.1)]
      have heq : attempt = retries := by omega
      have hfuel : fuel = 0 := by omega
      subst heq hfuel
      exact ⟨rfl, rfl⟩

/-- Claim C1: for every zero-argument operation that fails with a
transient-classified error on every invocation, `withRetry` under its default
configuration (retries = 8, baseDelay = 4000) invokes the operation exactly
9 times in total, and then rethrows the error produced by the final (9th,
0-indexed 8th) invocation. -/
theorem c1_retry_budget (fn : Nat → Except String α) (es : Nat → String)
    (rand : Nat → ℚ)
    (hf : ∀ i, fn i = .error (es i)) (ht : ∀ i, isTransientError (es i) = true) :
    (withRetryDefault fn rand).calls = 9 ∧
    (withRetryDefault fn rand).result = .error (es 8) := by
  have h := withRetryGo_allFail fn es rand 4000 8 hf ht 9 0 rfl (by omega)
  exact ⟨h.2, h.1⟩

/-- Concrete run for C1: an operation that always fails with "429" is invoked
9 times and the final "429" error is propagated. -/
def c1FailingOp : Nat → Except String String := fun _ => Except.error "429"

/-- Deterministic stand-in for `Math.random()` used by concrete runs. -/
def c1Rand : Nat → ℚ := fun _ => 0

theorem c1_retry_budget_witness :
    (withRetryDefault c1FailingOp c1Rand).calls = 9 ∧
    (withRetryDefault c1FailingOp c1Rand).result = .error "429" :=
  c1_retry_budget c1FailingOp (fun _ => "429") c1Rand (fun _ => rfl)
    (fun _ => (by decide : isTransientError "429" = true))

/-- Claim C2: when the first invocation fails, the executor retries only if
the error description carries a transient marker ("429", "RESOURCE_EXHAUSTED",
"500", "503", "Rpc failed", "xhr error"); an error with none of these markers
is rethrown immediately after the first failing attempt — one single
invocation, no backoff sleep — regardless of the remaining budget, while a
transient first error leads to at least a second invocation. -/
theorem c2_fatal_classification (fn : Nat → Except String String)
    (rand : Nat → ℚ) (e : String) (h0 : fn 0 = .error e) :
    (isTransientError e = false →
      withRetryDefault fn rand = ⟨.error e, 1, []⟩) ∧
    (isTransientError e = true → 2 ≤ (withRetryDefault fn rand).calls) := by
  constructor
  · intro hfatal
    simp only [withRetryDefault, withRetry, withRetryGo, h0]
    rw [if_neg (by intro hand; rw [hfatal] at hand; exact Bool.false_ne_true hand.2)]
  · intro htrans
    simp only [withRetryDefault, withRetry, withRetryGo, h0]
    rw [if_pos ⟨by omega, htrans⟩]
    have h1 := withRetryGo_calls_pos fn rand 4000 8 8 (0 + 1) (by omega)
    change 2 ≤ (withRetryGo fn rand 4000 8 8 (0 + 1)).calls + 1
    omega

/-- Concrete run for C2: a "bad credentials" error carries no transient
marker and is rethrown after exactly one invocation with no sleep. -/
def c2FatalOp : Nat → Except String String := fun _ => Except.error "bad credentials"

/-- Deterministic stand-in for `Math.random()` used by the C2 run. -/
def c2Rand : Nat → ℚ := fun _ => 0

theorem c2_fatal_classification_witness :
    c2FatalOp 0 = Except.error "bad credentials" ∧
    isTransientError "bad credentials" = false ∧
    withRetryDefault c2FatalOp c2Rand =
      ⟨Except.error "bad credentials", 1, []⟩ :=
  ⟨rfl, by decide,
    (c2_fatal_classification c2FatalOp c2Rand "bad credentials" rfl).1 (by decide)⟩

/-- Claim C3: for every failing attempt number k ≥ 1, the pre-jitter delay is
`baseDelayMs * backoffFactor ^ (k-1)` with factor 5/2 for rate-limit errors
and 2 otherwise; the slept delay is `max 2000 (pre + jitter)` for a jitter in
the symmetric range ±25% of the pre-jitter delay (when the `Math.random()`
draw r lies in [0, 1]); the slept delay is never below 2000; and for a fixed
classification the pre-jitter delay is non-decreasing in k. -/
theorem c3_backoff_shape (baseDelay : ℚ) (isRL : Bool) (k : Nat) (r : ℚ)
    (hb : 0 ≤ baseDelay) (hk : 1 ≤ k) (hr0 : 0 ≤ r) (hr1 : r ≤ 1) :
    backoffDelay baseDelay isRL k
        = baseDelay * (if isRL then (5 / 2 : ℚ) else 2) ^ (k - 1) ∧
    (∃ j : ℚ, -(backoffDelay baseDelay isRL k * (1 / 4)) ≤ j ∧
        j ≤ backoffDelay baseDelay isRL k * (1 / 4) ∧
        finalDelay baseDelay isRL k r
          = max 2000 (backoffDelay baseDelay isRL k + j)) ∧
    (2000 : ℚ) ≤ finalDelay baseDelay isRL k r ∧
    backoffDelay baseDelay isRL k ≤ backoffDelay baseDelay isRL (k + 1) := by
  have hfac0 : (0 : ℚ) ≤ (if isRL then (5 / 2 : ℚ) else 2) := by
    cases isRL <;> norm_num
  have hfac1 : (1 : ℚ) ≤ (if isRL then (5 / 2 : ℚ) else 2) := by
    cases isRL <;> norm_num
  have hbd : 0 ≤ backoffDelay baseDelay isRL k :=
    mul_nonneg hb (pow_nonneg hfac0 _)
  refine ⟨rfl, ⟨backoffDelay baseDelay isRL k * (1 / 4) * (r * 2 - 1), ?_, ?_, rfl⟩, ?_, ?_⟩
  · nlinarith
  · nlinarith
  · exact le_max_left _ _
  · unfold backoffDelay
    have : (if isRL then (5 / 2 : ℚ) else 2) ^ (k - 1)
        ≤ (if isRL then (5 / 2 : ℚ) else 2) ^ (k + 1 - 1) :=
      pow_le_pow_right₀ hfac1 (by omega)
    exact mul_le_mul_of_nonneg_left this hb

theorem c3_backoff_shape_witness :
    (0 : ℚ) ≤ 4000 ∧ 1 ≤ 1 ∧ (0 : ℚ) ≤ 1 / 2 ∧ (1 / 2 : ℚ) ≤ 1 ∧
    (2000 : ℚ) ≤ finalDelay 4000 true 1 (1 / 2) ∧
    backoffDelay 4000 true 1 ≤ backoffDelay 4000 true 2 :=
  ⟨by norm_num, le_refl 1, by norm_num, by norm_num,
    (c3_backoff_shape 4000 true 1 (1 / 2) (by norm_num) (by norm_num)
      (by norm_num) (by norm_num)).2.2.1,
    (c3_backoff_shape 4000 true 1 (1 / 2) (by norm_num) (by norm_num)
      (by norm_num) (by norm_num)).2.2.2⟩

/-- Claim C4: the batch task generator produces exactly |I| × |C| work items,
the empty list when either input is empty, and the item at position
i * |C| + j pairs the i-th image with the j-th color (image-major,
color-minor order). -/
theorem c4_task_generator (I : List ProcessedImage) (C : List ColorDefinition) :
    (makeTasks I C).length = I.length * C.length ∧
    (I = [] ∨ C = [] → makeTasks I C = []) ∧
    ∀ i j, (hi : i < I.length) → (hj : j < C.length) →
      (makeTasks I C)[i * C.length + j]? =
        some ⟨(I[i]).id, C[j], (I[i]).originalUrl⟩ := by
  refine ⟨?_, ?_, ?_⟩
  · induction I with
    | nil => simp [makeTasks]
    | cons img rest ih =>
      simp only [makeTasks, List.flatMap_cons, List.length_append,
        List.length_map, List.length_cons] at ih ⊢
      rw [ih]; ring
  · rintro (h | h) <;> simp [makeTasks, h]
  · induction I with
    | nil => intro i j hi; simp at hi
    | cons img rest ih =>
      intro i j hi hj
      have hsplit : makeTasks (img :: rest) C
          = (C.map fun color => (⟨img.id, color, img.originalUrl⟩ : RecolorTask))
            ++ makeTasks rest C := by
        simp [makeTasks]
      rw [hsplit]
      cases i with
      | zero =>
        rw [Nat.zero_mul, Nat.zero_add]
        rw [List.getElem?_append_left (by simpa using hj)]
        rw [List.getElem?_map, List.getElem?_eq_getElem hj]
        rfl
      | succ i =>
        have hlen : (C.map fun color =>
            (⟨img.id, color, img.originalUrl⟩ : RecolorTask)).length = C.length := by
          simp
        have hmul : (i + 1) * C.length = i * C.length + C.length := by ring
        rw [List.getElem?_append_right (by rw [hlen]; omega)]
        rw [hlen]
        have harith : (i + 1) * C.length + j - C.length = i * C.length + j := by omega
        rw [harith]
        exact ih i j (by simpa using hi) hj

/-- Concrete inputs for C4: two images and two colors. -/
def c4Images : List ProcessedImage :=
  [⟨"a", "u", [], .pending, none, none⟩, ⟨"b", "v", [], .pending, none, none⟩]

/-- Concrete colors for C4. -/
def c4Colors : List ColorDefinition := [⟨"R", "#FF0000"⟩, ⟨"B", "#0000FF"⟩]

theorem c4_task_generator_witness :
    (makeTasks c4Images c4Colors).length = 2 * 2 ∧
    (makeTasks c4Images c4Colors)[1 * 2 + 1]? =
      some ⟨"b", ⟨"B", "#0000FF"⟩, "v"⟩ :=
  ⟨(c4_task_generator c4Images c4Colors).1,
    (c4_task_generator c4Images c4Colors).2.2 1 1 (by decide) (by decide)⟩

/-- Image state on which claim C5 fails: it already holds a variant for hex
"#ff0000" (lowercase spelling). -/
def c5Image : ProcessedImage :=
  ⟨"a", "u", [⟨some ⟨"Red", "#ff0000"⟩, "url1"⟩], .completed, none, some 0⟩

/-- Work item whose color is the same hex in uppercase spelling. -/
def c5Task : RecolorTask := ⟨"a", ⟨"Red", "#FF0000"⟩, "u"⟩

/-- JavaScript `s.toLowerCase()` restricted to ASCII strings (hex values):
the per-character lowercase map.  This is the comparison the source uses
wherever it tests color identity (e.g. Controls.tsx `toggleColor`,
App.tsx `handleSampleColor`). -/
def strToLower (s : String) : String := String.mk (s.toList.map Char.toLower)

/-- Counterexample to claim C5: a success for color "#FF0000" on an image
that already holds a variant for "#ff0000" does NOT replace it — the update
compares hex strings exactly (`r.color?.hex !== task.color.hex`,
src/App.tsx line 108) — so afterwards the list holds two variants whose hex
values are equal case-insensitively, contradicting case-insensitive
last-write-wins. -/
theorem c5_counterexample :
    ((successUpdate c5Task "url2" c5Image).results.map
        (fun r => r.color.map ColorDefinition.hex))
      = [some "#ff0000", some "#FF0000"] ∧
    strToLower "#ff0000" = strToLower "#FF0000" := by
  constructor <;> decide

/-- Claim C5 (amended): replacement is last-write-wins under EXACT
(case-sensitive) hex equality: after a successful work item on the owning
image, the new variant sits at the end of the list, it is the only variant
whose hex exactly equals the new color's hex, and every existing variant
with a different (including case-differing) hex spelling is retained. -/
theorem c5_exact_hex_lww (task : RecolorTask) (url : String)
    (img : ProcessedImage) (hid : img.id = task.imageId) :
    (successUpdate task url img).results.getLast? = some ⟨some task.color, url⟩ ∧
    ((successUpdate task url img).results.countP
        (fun r => decide (r.color.map ColorDefinition.hex = some task.color.hex))) = 1 ∧
    (∀ r ∈ (successUpdate task url img).results,
        r.color.map ColorDefinition.hex = some task.color.hex →
        r = ⟨some task.color, url⟩) ∧
    (∀ r ∈ img.results, r.color.map ColorDefinition.hex ≠ some task.color.hex →
        r ∈ (successUpdate task url img).results) := by
  have hres : (successUpdate task url img).results
      = (img.results.filter
          fun r => r.color.map ColorDefinition.hex ≠ some task.color.hex)
        ++ [⟨some task.color, url⟩] := by
    unfold successUpdate
    rw [if_pos hid]
  refine ⟨?_, ?_, ?_, ?_⟩
  · rw [hres, List.getLast?_concat]
  · rw [hres, List.countP_append]
    have h0 : (img.results.filter
        fun r => r.color.map ColorDefinition.hex ≠ some task.color.hex).countP
          (fun r => decide (r.color.map ColorDefinition.hex = some task.color.hex)) = 0 := by
      rw [List.countP_eq_zero]
      intro r hr
      have h2 := (List.mem_filter.mp hr).2
      simp only [decide_eq_true_eq] at h2 ⊢
      exact h2
    rw [h0]
    simp
  · intro r hr hhex
    rw [hres] at hr
    rcases List.mem_append.mp hr with hl | hl
    · have h2 := (List.mem_filter.mp hl).2
      simp only [decide_eq_true_eq] at h2
      exact absurd hhex h2
    · simpa using hl
  · intro r hr hhex
    rw [hres]
    exact List.mem_append_left _
      (List.mem_filter.mpr ⟨hr, by rw [decide_eq_true_eq]; exact hhex⟩)

theorem c5_exact_hex_lww_witness :
    c5Image.id = c5Task.imageId ∧
    (successUpdate c5Task "url2" c5Image).results.getLast?
      = some ⟨some c5Task.color, "url2"⟩ ∧
    ((successUpdate c5Task "url2" c5Image).results.countP
        (fun r => decide (r.color.map ColorDefinition.hex = some c5Task.color.hex))) = 1 :=
  ⟨rfl, (c5_exact_hex_lww c5Task "url2" c5Image rfl).1,
    (c5_exact_hex_lww c5Task "url2" c5Image rfl).2.1⟩

/-- Claim C6: after a failed work item, an owning image that still has zero
results is set to error status with a distinct stable message per failure
category (credential/authorization, rate-limit/backoff, generic, in that
precedence); an image with at least one result is left entirely unchanged —
its status (completed after an earlier success in this run) and absent error
message are untouched. -/
theorem c6_failure_surfacing (task : RecolorTask) (errStr : String)
    (img : ProcessedImage) :
    (img.results ≠ [] → failUpdate task errStr img = img) ∧
    (img.id = task.imageId → img.results = [] →
      (failUpdate task errStr img).status = .error ∧
      (isApiKeyError errStr = true →
        (failUpdate task errStr img).errorMsg = some apiKeyErrorMsg) ∧
      (isApiKeyError errStr = false → isRateLimitError errStr = true →
        (failUpdate task errStr img).errorMsg = some rateLimitErrorMsg) ∧
      (isApiKeyError errStr = false → isRateLimitError errStr = false →
        (failUpdate task errStr img).errorMsg = some genericErrorMsg)) ∧
    (apiKeyErrorMsg ≠ rateLimitErrorMsg ∧ apiKeyErrorMsg ≠ genericErrorMsg ∧
      rateLimitErrorMsg ≠ genericErrorMsg) := by
  refine ⟨?_, ?_, by decide⟩
  · intro h
    unfold failUpdate
    rw [if_neg]
    rintro ⟨-, hlen⟩
    exact h (List.length_eq_zero.mp hlen)
  · intro hid hres
    have hcond : img.id = task.imageId ∧ img.results.length = 0 :=
      ⟨hid, by simp [hres]⟩
    unfold failUpdate
    rw [if_pos hcond]
    refine ⟨rfl, ?_, ?_, ?_⟩
    · intro hak; simp [failMessage, hak]
    · intro hak hrl; simp [failMessage, hak, hrl]
    · intro hak hrl; simp [failMessage, hak, hrl]

/-- Concrete failing work item for C6. -/
def c6Task : RecolorTask := ⟨"a", ⟨"R", "#FF0000"⟩, "u"⟩

/-- Owning image with zero results at failure time. -/
def c6Img : ProcessedImage := ⟨"a", "u", [], .processing, none, none⟩

/-- Owning image that already has one successful result. -/
def c6ImgDone : ProcessedImage :=
  ⟨"a", "u", [⟨some ⟨"R", "#FF0000"⟩, "x"⟩], .completed, none, some 0⟩

theorem c6_failure_surfacing_witness :
    (failUpdate c6Task "429" c6Img).status = .error ∧
    (failUpdate c6Task "429" c6Img).errorMsg = some rateLimitErrorMsg ∧
    failUpdate c6Task "429" c6ImgDone = c6ImgDone :=
  ⟨((c6_failure_surfacing c6Task "429" c6Img).2.1 rfl rfl).1,
    ((c6_failure_surfacing c6Task "429" c6Img).2.1 rfl rfl).2.2.1
      (by decide) (by decide),
    (c6_failure_surfacing c6Task "429" c6ImgDone).1 (by simp [c6ImgDone])⟩

/-- Each loop iteration bumps the completed-task counter by exactly one,
whatever the call outcome. -/
theorem runStep_completedTasks (modelTier : ModelTier) (totalTasks : Nat)
    (call : RecolorTask → Except String String) (task : RecolorTask)
    (st : RunState) :
    (runStep modelTier totalTasks call task st).completedTasks
      = st.completedTasks + 1 ∧
    (runStep modelTier totalTasks call task st).processingProgress
      = ((st.completedTasks + 1 : Nat) : ℚ) / (totalTasks : ℚ) := by
  unfold runStep
  cases call task <;> exact ⟨rfl, rfl⟩

/-- Claim C7: within one run the counter increases by exactly one per work
item independently of outcomes (so the run never aborts early and the count
is monotone), and once the queue is exhausted the counter equals the initial
counter plus the queue length — with the initial counter 0, it equals
`totalItems` and the published progress fraction is `totalItems/totalItems`,
for every outcome oracle, including one that fails every item. -/
theorem c7_progress (modelTier : ModelTier) (totalTasks : Nat)
    (call : RecolorTask → Except String String) (tasks : List RecolorTask)
    (st : RunState) :
    (runTasks modelTier totalTasks call tasks st).completedTasks
        = st.completedTasks + tasks.length ∧
    st.completedTasks ≤ (runTasks modelTier totalTasks call tasks st).completedTasks ∧
    (tasks ≠ [] →
      (runTasks modelTier totalTasks call tasks st).processingProgress
        = ((st.completedTasks + tasks.length : Nat) : ℚ) / (totalTasks : ℚ)) := by
  have hmain : ∀ tasks st,
      (runTasks modelTier totalTasks call tasks st).completedTasks
          = st.completedTasks + tasks.length ∧
      (tasks ≠ [] →
        (runTasks modelTier totalTasks call tasks st).processingProgress
          = ((st.completedTasks + tasks.length : Nat) : ℚ) / (totalTasks : ℚ)) := by
    intro tasks
    induction tasks with
    | nil => intro st; simp [runTasks]
    | cons t rest ih =>
      intro st
      have hstep := runStep_completedTasks modelTier totalTasks call t st
      constructor
      · show (runTasks modelTier totalTasks call rest
            (runStep modelTier totalTasks call t st)).completedTasks = _
        rw [(ih _).1, hstep.1]
        simp [List.length_cons]
        omega
      · intro _hne
        show (runTasks modelTier totalTasks call rest
            (runStep modelTier totalTasks call t st)).processingProgress = _
        rcases eq_or_ne rest [] with hr | hr
        · subst hr
          show (runStep modelTier totalTasks call t st).processingProgress = _
          rw [hstep.2]
          norm_num
        · rw [(ih _).2 hr, hstep.1]
          congr 1
          simp only [List.length_cons]
          push_cast
          ring
  exact ⟨(hmain tasks st).1, by rw [(hmain tasks st).1]; omega, (hmain tasks st).2⟩

/-- Concrete work item for C7. -/
def c7Task : RecolorTask := ⟨"a", ⟨"R", "#FF0000"⟩, "u"⟩

/-- Initial loop state for C7: counter 0, one task. -/
def c7State : RunState := ⟨[], 0, 0, false, none⟩

/-- An oracle that fails every item. -/
def c7FailCall : RecolorTask → Except String String := fun _ => .error "500"

theorem c7_progress_witness :
    (runTasks .flash 1 c7FailCall [c7Task] c7State).completedTasks = 0 + 1 ∧
    (runTasks .flash 1 c7FailCall [c7Task] c7State).processingProgress
      = ((0 + 1 : Nat) : ℚ) / (1 : ℚ) :=
  ⟨(c7_progress .flash 1 c7FailCall [c7Task] c7State).1,
    (c7_progress .flash 1 c7FailCall [c7Task] c7State).2.2 (by simp)⟩

/-- Start request with an empty image set (and one target color). -/
def c8EmptyState : AppState :=
  ⟨[], [⟨"Red", "#FF0000"⟩], .flash, none, false, false, 0, false⟩

/-- A call oracle that would succeed if the run ever started. -/
def c8Call : RecolorTask → Except String String := fun _ => .ok "data"

/-- Counterexample to claim C8: on an empty image set the handler refuses,
but it reports NO rejection reason to the caller — the source just executes
`return;` (src/App.tsx line 80), so the value handed back to the caller is
`none` rather than any specific reason. -/
theorem c8_counterexample : (handleRecolorBatch c8Call c8EmptyState).2 = none := rfl

/-- Claim C8 (amended): when a batch run start is requested with an empty
image set or an empty target-color set, the orchestrator refuses to start
and mutates no state at all, but it declines silently — no rejection reason
is reported to the caller. -/
theorem c8_silent_guard (call : RecolorTask → Except String String)
    (s : AppState) (h : s.images = [] ∨ s.targetColors = []) :
    handleRecolorBatch call s = (s, none) := by
  have hc : s.images.length = 0 ∨ s.targetColors.length = 0 := by
    rcases h with h | h
    · left; simp [h]
    · right; simp [h]
  unfold handleRecolorBatch
  rw [if_pos hc]

theorem c8_silent_guard_witness :
    (c8EmptyState.images = [] ∨ c8EmptyState.targetColors = []) ∧
    handleRecolorBatch c8Call c8EmptyState = (c8EmptyState, none) :=
  ⟨Or.inl rfl, c8_silent_guard c8Call c8EmptyState (Or.inl rfl)⟩

/-- Claim C10: a successful work-item write removes every variant whose hex
exactly equals the new color's hex before appending the new variant, so if
an image's list of (present) hex values has no exact duplicates, it still
has none after the update; a failed work item never changes a result
list. -/
theorem c10_exact_hex_nodup (task : RecolorTask) (url errStr : String)
    (img : ProcessedImage)
    (h : (img.results.filterMap fun r => r.color.map ColorDefinition.hex).Nodup) :
    ((successUpdate task url img).results.filterMap
        fun r => r.color.map ColorDefinition.hex).Nodup ∧
    (failUpdate task errStr img).results = img.results := by
  constructor
  · unfold successUpdate
    by_cases hid : img.id = task.imageId
    · rw [if_pos hid]
      simp only [List.filterMap_append]
      have hnew : (([⟨some task.color, url⟩] : List ProcessedResult).filterMap
          fun r => r.color.map ColorDefinition.hex) = [task.color.hex] := rfl
      rw [hnew]
      have hsub : ((img.results.filter fun r =>
          r.color.map ColorDefinition.hex ≠ some task.color.hex).filterMap
            fun r => r.color.map ColorDefinition.hex).Nodup :=
        h.sublist ((List.filter_sublist _).filterMap _)
      refine List.Nodup.append hsub (List.nodup_singleton _) ?_
      intro a ha hb
      obtain ⟨r, hr, hfr⟩ := List.mem_filterMap.mp ha
      have hp := (List.mem_filter.mp hr).2
      rw [decide_eq_true_eq] at hp
      have hbx : a = task.color.hex := by simpa using hb
      exact hp (hbx ▸ hfr)
    · rw [if_neg hid]
      exact h
  · unfold failUpdate
    split <;> rfl

/-- Concrete image for C10 whose hex list has no exact duplicates. -/
def c10Image : ProcessedImage :=
  ⟨"a", "u", [⟨some ⟨"Red", "#ff0000"⟩, "u1"⟩, ⟨some ⟨"Blue", "#0000FF"⟩, "u2"⟩],
    .completed, none, some 0⟩

/-- Work item rewriting the blue variant of `c10Image`. -/
def c10Task : RecolorTask := ⟨"a", ⟨"Blue", "#0000FF"⟩, "u"⟩

theorem c10_exact_hex_nodup_witness :
    ((c10Image.results.filterMap fun r => r.color.map ColorDefinition.hex).Nodup) ∧
    ((successUpdate c10Task "u3" c10Image).results.filterMap
        fun r => r.color.map ColorDefinition.hex).Nodup ∧
    (failUpdate c10Task "500" c10Image).results = c10Image.results :=
  ⟨by decide,
    (c10_exact_hex_nodup c10Task "u3" "500" c10Image (by decide)).1,
    (c10_exact_hex_nodup c10Task "u3" "500" c10Image (by decide)).2⟩

/-- The two base-16 digit characters of a byte value, most significant
first (property-side description of the RR/GG/BB blocks). -/
def byteHex (v : Nat) : List Char :=
  [hexDigitChar (v / 16), hexDigitChar (v % 16)]

/-- Uppercase hexadecimal digit alphabet. -/
def isUpperHexDigit (c : Char) : Bool :=
  ("0123456789ABCDEF".toList).contains c

/-- Exactly `k` little-endian base-16 digits of `v` (zero padded). -/
def lowDigitsLE : Nat → Nat → List Char
  | 0, _ => []
  | k + 1, v => hexDigitChar (v % 16) :: lowDigitsLE k (v / 16)

theorem toHexLE_zero (fuel : Nat) : toHexLE fuel 0 = [] := by
  cases fuel <;> simp [toHexLE]

/-- Base-16 digit expansion of `16 ^ k + v` for `v < 16 ^ k`: the `k`
padded digits of `v` followed by a leading digit 1. -/
theorem toHexLE_pow_add :
    ∀ (k fuel v : Nat), v < 16 ^ k → k + 1 ≤ fuel →
      toHexLE fuel (16 ^ k + v) = lowDigitsLE k v ++ [hexDigitChar 1] := by
  intro k
  induction k with
  | zero =>
    intro fuel v hv hfuel
    interval_cases v
    match fuel, hfuel with
    | f + 1, _ =>
      show toHexLE (f + 1) 1 = [hexDigitChar 1]
      simp [toHexLE, toHexLE_zero]
  | succ k ih =>
    intro fuel v hv hfuel
    match fuel, hfuel with
    | f + 1, _ =>
      have hne : 16 ^ (k + 1) + v ≠ 0 := by positivity
      simp only [toHexLE, if_neg hne]
      have hpow : 16 ^ (k + 1) = 16 * 16 ^ k := by ring
      have hmod : (16 ^ (k + 1) + v) % 16 = v % 16 := by
        rw [hpow]; exact Nat.mul_add_mod 16 (16 ^ k) v
      have hdiv : (16 ^ (k + 1) + v) / 16 = 16 ^ k + v / 16 := by
        rw [hpow]; exact Nat.mul_add_div (by norm_num) _ _
      have hvlt : v / 16 < 16 ^ k := by
        have h16 : v < 16 * 16 ^ k := by rw [← hpow]; exact hv
        generalize 16 ^ k = P at h16 ⊢
        omega
      rw [hmod, hdiv, ih f (v / 16) hvlt (by omega)]
      rfl

/-- Digits below 16 turn into uppercase hexadecimal digit characters. -/
theorem hexDigitChar_upper (d : Nat) (hd : d < 16) :
    isUpperHexDigit (hexDigitChar d).toUpper = true := by
  interval_cases d <;> decide

/-- Claim C9: the sampler scales the display-space pointer coordinate with
the independent factors naturalW/rectW and naturalH/rectH, floors each
scaled coordinate, reads that one pixel of the full-resolution offscreen
copy, and formats it as '#' followed by exactly six uppercase hexadecimal
digits pairing up as RRGGBB; consequently the string has length 7. -/
theorem c9_color_sampler (img : ℤ → ℤ → RGB)
    (naturalW naturalH rectW rectH x y : ℚ)
    (hr : (img ⌊x * (naturalW / rectW)⌋ ⌊y * (naturalH / rectH)⌋).r < 256)
    (hg : (img ⌊x * (naturalW / rectW)⌋ ⌊y * (naturalH / rectH)⌋).g < 256)
    (hb : (img ⌊x * (naturalW / rectW)⌋ ⌊y * (naturalH / rectH)⌋).b < 256) :
    getHexColor img naturalW naturalH rectW rectH x y
      = String.mk ('#' ::
          ((byteHex (img ⌊x * (naturalW / rectW)⌋ ⌊y * (naturalH / rectH)⌋).r
            ++ byteHex (img ⌊x * (naturalW / rectW)⌋ ⌊y * (naturalH / rectH)⌋).g
            ++ byteHex (img ⌊x * (naturalW / rectW)⌋ ⌊y * (naturalH / rectH)⌋).b).map
              Char.toUpper)) ∧
    (getHexColor img naturalW naturalH rectW rectH x y).length = 7 ∧
    ∀ c ∈ ((getHexColor img naturalW naturalH rectW rectH x y).toList.drop 1),
      isUpperHexDigit c = true := by
  set p := img ⌊x * (naturalW / rectW)⌋ ⌊y * (naturalH / rectH)⌋ with hp
  have hstart : getHexColor img naturalW naturalH rectW rectH x y
      = String.mk ('#' ::
          ((toHexLE 8 ((1 <<< 24) + (p.r <<< 16) + (p.g <<< 8) + p.b)).reverse.drop 1).map
            Char.toUpper) := rfl
  have hshift : (1 <<< 24) + (p.r <<< 16) + (p.g <<< 8) + p.b
      = 16 ^ 6 + (p.r * 65536 + p.g * 256 + p.b) := by
    simp [Nat.shiftLeft_eq]
    ring
  have hvlt : p.r * 65536 + p.g * 256 + p.b < 16 ^ 6 := by
    have : (16 : Nat) ^ 6 = 16777216 := by norm_num
    omega
  have hdigits := toHexLE_pow_add 6 8 (p.r * 65536 + p.g * 256 + p.b) hvlt (by omega)
  have e0 : (p.r * 65536 + p.g * 256 + p.b) % 16 = p.b % 16 := by omega
  have e1 : (p.r * 65536 + p.g * 256 + p.b) / 16 % 16 = p.b / 16 := by omega
  have e2 : (p.r * 65536 + p.g * 256 + p.b) / 16 / 16 % 16 = p.g % 16 := by omega
  have e3 : (p.r * 65536 + p.g * 256 + p.b) / 16 / 16 / 16 % 16 = p.g / 16 := by omega
  have e4 : (p.r * 65536 + p.g * 256 + p.b) / 16 / 16 / 16 / 16 % 16 = p.r % 16 := by
    omega
  have e5 : (p.r * 65536 + p.g * 256 + p.b) / 16 / 16 / 16 / 16 / 16 % 16 = p.r / 16 := by
    omega
  have hlow : lowDigitsLE 6 (p.r * 65536 + p.g * 256 + p.b)
      = [hexDigitChar (p.b % 16), hexDigitChar (p.b / 16),
          hexDigitChar (p.g % 16), hexDigitChar (p.g / 16),
          hexDigitChar (p.r % 16), hexDigitChar (p.r / 16)] := by
    show [hexDigitChar ((p.r * 65536 + p.g * 256 + p.b) % 16),
        hexDigitChar ((p.r * 65536 + p.g * 256 + p.b) / 16 % 16),
        hexDigitChar ((p.r * 65536 + p.g * 256 + p.b) / 16 / 16 % 16),
        hexDigitChar ((p.r * 65536 + p.g * 256 + p.b) / 16 / 16 / 16 % 16),
        hexDigitChar ((p.r * 65536 + p.g * 256 + p.b) / 16 / 16 / 16 / 16 % 16),
        hexDigitChar ((p.r * 65536 + p.g * 256 + p.b) / 16 / 16 / 16 / 16 / 16 % 16)] = _
    rw [e0, e1, e2, e3, e4, e5]
  have hmain : getHexColor img naturalW naturalH rectW rectH x y
      = String.mk ('#' ::
          ((byteHex p.r ++ byteHex p.g ++ byteHex p.b).map Char.toUpper)) := by
    rw [hstart, hshift, hdigits, hlow]
    rfl
  refine ⟨hmain, ?_, ?_⟩
  · rw [hmain]; rfl
  · rw [hmain]
    intro c hc
    have hmem : c ∈ ([hexDigitChar (p.r / 16), hexDigitChar (p.r % 16),
        hexDigitChar (p.g / 16), hexDigitChar (p.g % 16),
        hexDigitChar (p.b / 16), hexDigitChar (p.b % 16)].map Char.toUpper) := hc
    simp only [List.map_cons, List.map_nil, List.mem_cons, List.not_mem_nil,
      or_false] at hmem
    have hb16 : ∀ v : Nat, v < 256 → v / 16 < 16 ∧ v % 16 < 16 := by
      intro v hv; omega
    rcases hmem with h | h | h | h | h | h <;> rw [h] <;>
      first
      | exact hexDigitChar_upper _ (hb16 _ hr).1
      | exact hexDigitChar_upper _ (hb16 _ hr).2
      | exact hexDigitChar_upper _ (hb16 _ hg).1
      | exact hexDigitChar_upper _ (hb16 _ hg).2
      | exact hexDigitChar_upper _ (hb16 _ hb).1
      | exact hexDigitChar_upper _ (hb16 _ hb).2

/-- Concrete 200 × 200 native image for Scenario D: pixel (100, 100) holds
RGB (171, 205, 239), i.e. #ABCDEF. -/
def c9Image : ℤ → ℤ → RGB :=
  fun a b => if a = 100 ∧ b = 100 then ⟨171, 205, 239⟩ else ⟨0, 0, 0⟩

theorem c9_color_sampler_witness :
    (c9Image 100 100).r < 256 ∧
    getHexColor c9Image 200 200 100 100 50 50
      = String.mk ('#' ::
          ((byteHex (c9Image 100 100).r ++ byteHex (c9Image 100 100).g
            ++ byteHex (c9Image 100 100).b).map Char.toUpper)) ∧
    getHexColor c9Image 200 200 100 100 50 50 = "#ABCDEF" := by
  have hfloor : (⌊(50 : ℚ) * ((200 : ℚ) / 100)⌋ : ℤ) = 100 := by
    norm_num
  have h := c9_color_sampler c9Image 200 200 100 100 50 50
    (by rw [hfloor]; decide) (by rw [hfloor]; decide) (by rw [hfloor]; decide)
  rw [hfloor] at h
  exact ⟨by decide, h.1, h.1.trans (by decide)⟩

end BatchColorChange
